import Mathlib

/-!
Shallow embedding of the quota limiter ("QueryLimiter") of the kagi-discord-bot
repository (src/utils/queryLimiter.ts, current variant with `unlimitedUserIds`),
together with the command-dispatch glue that calls it
(the `interactionCreate` handler of the bot entry point).

Time is modelled as an integer count of milliseconds (JS `Date.now()`); the
clock is passed explicitly as a `now` argument to each operation.  The mutable
`QueryLimiter` instance becomes an explicit state value threaded through the
operations.
-/

namespace KagiBot

/-- A usage record, `QueryRecord` in the source:
`{userId: string, command: string, timestamp: number}`. -/
structure QueryRecord where
  userId : String
  command : String
  timestamp : Int
deriving DecidableEq, Repr

/-- The four window period names, the `TimePeriod` union type of the source. -/
inductive TimePeriod where
  | hourly | daily | weekly | monthly
deriving DecidableEq, Repr

/-- `TIME_PERIODS` constant of the source: the duration of each period in
milliseconds. -/
def TIME_PERIODS : TimePeriod → Int
  | .hourly => 60 * 60 * 1000
  | .daily => 24 * 60 * 60 * 1000
  | .weekly => 7 * 24 * 60 * 60 * 1000
  | .monthly => 30 * 24 * 60 * 60 * 1000

/-- One configured rule: `{limit: number, period: TimePeriod}`.  `limit = -1`
is the unlimited sentinel. -/
structure QuotaRule where
  limit : Int
  period : TimePeriod
deriving DecidableEq, Repr

/-- The `QueryLimits` interface: a global rule plus a per-command mapping,
modelled as an association list (first binding wins, as JS object lookup). -/
structure QueryLimits where
  global : QuotaRule
  commands : List (String × QuotaRule)
deriving DecidableEq, Repr

/-- JS object property lookup `this.limits.commands[command]`. -/
def lookupRule (cmds : List (String × QuotaRule)) (command : String) : Option QuotaRule :=
  (cmds.find? (fun p => p.1 == command)).map (·.2)

/-- The limiter state: the in-memory ledger `queryRecords`, the immutable
configuration `limits`, and the privileged set `unlimitedUserIds`
(a set of identity strings, modelled as a list queried with `contains`). -/
structure QueryLimiter where
  queryRecords : List QueryRecord
  limits : QueryLimits
  unlimitedUserIds : List String
deriving DecidableEq, Repr

/-- `getRecordsInPeriod(userId, command, period)`: filter the ledger by
identity, by timestamp at least `now - TIME_PERIODS[period]`, and (when
`command` is non-null) by scope.  The source compares
`record.timestamp >= since` with no upper bound. -/
def getRecordsInPeriod (L : QueryLimiter) (now : Int) (userId : String)
    (command : Option String) (period : TimePeriod) : List QueryRecord :=
  let since := now - TIME_PERIODS period
  L.queryRecords.filter (fun r =>
    r.userId == userId && decide (since ≤ r.timestamp) &&
    (match command with
     | none => true
     | some c => r.command == c))

/-- The per-command check inside `canMakeQuery`: blocked when a rule exists
for the command, its limit is not the `-1` sentinel, and the window count has
reached the limit (`cmdRecords.length >= cmdLimit.limit`). -/
def commandBlocked (L : QueryLimiter) (now : Int) (userId command : String) : Bool :=
  match lookupRule L.limits.commands command with
  | some cmdLimit =>
      cmdLimit.limit != -1 &&
      decide (cmdLimit.limit ≤ (getRecordsInPeriod L now userId (some command) cmdLimit.period).length)
  | none => false

/-- The global check inside `canMakeQuery`: blocked when the global limit is
not the `-1` sentinel and the identity's all-scope window count has reached it. -/
def globalBlocked (L : QueryLimiter) (now : Int) (userId : String) : Bool :=
  L.limits.global.limit != -1 &&
  decide (L.limits.global.limit ≤ (getRecordsInPeriod L now userId none L.limits.global.period).length)

/-- `canMakeQuery(userId, command)`: privileged identities pass immediately;
otherwise the per-command rule is checked first, then the global rule. -/
def canMakeQuery (L : QueryLimiter) (now : Int) (userId command : String) : Bool :=
  if L.unlimitedUserIds.contains userId then true
  else if commandBlocked L now userId command then false
  else if globalBlocked L now userId then false
  else true

/-- The `try`/`catch` wrapper of `canMakeQuery` (lines 381-412): if the body
faults (`fault = some msg`, an `EvaluationError`), the catch clause returns
`true` (fail open); otherwise the body's result stands.  No exception escapes:
the function is total into `Bool`. -/
def canMakeQueryWithFault (L : QueryLimiter) (now : Int) (userId command : String)
    (fault : Option String) : Bool :=
  match fault with
  | some _ => true
  | none => canMakeQuery L now userId command

/-- `recordQuery(userId, command)`: no-op for privileged identities, otherwise
push `{userId, command, timestamp: Date.now()}` onto the ledger.  There is no
admission check. -/
def recordQuery (L : QueryLimiter) (now : Int) (userId command : String) : QueryLimiter :=
  if L.unlimitedUserIds.contains userId then L
  else { L with queryRecords := L.queryRecords ++ [⟨userId, command, now⟩] }

/-- The `{command, global}` pair returned by `getRemainingQueries`. -/
structure Remaining where
  command : Int
  global : Int
deriving DecidableEq, Repr

/-- `getRemainingQueries(userId, command)`: `{-1, -1}` for privileged
identities; otherwise, per tier, `-1` when the tier is unlimited (no rule, or
the `-1` sentinel), else `limit - windowCount` (raw, possibly negative). -/
def getRemainingQueries (L : QueryLimiter) (now : Int) (userId command : String) : Remaining :=
  if L.unlimitedUserIds.contains userId then ⟨-1, -1⟩
  else
    let commandRemaining : Int :=
      match lookupRule L.limits.commands command with
      | some cmdLimit =>
          if cmdLimit.limit != -1 then
            cmdLimit.limit - (getRecordsInPeriod L now userId (some command) cmdLimit.period).length
          else -1
      | none => -1
    let globalRemaining : Int :=
      if L.limits.global.limit != -1 then
        L.limits.global.limit - (getRecordsInPeriod L now userId none L.limits.global.period).length
      else -1
    ⟨commandRemaining, globalRemaining⟩

/-- `cleanupOldRecords()`: drop every ledger record whose timestamp is older
than `now - TIME_PERIODS.monthly` (keep `record.timestamp >= oldestToKeep`). -/
def cleanupOldRecords (L : QueryLimiter) (now : Int) : QueryLimiter :=
  { L with queryRecords :=
      L.queryRecords.filter (fun r => decide (now - TIME_PERIODS .monthly ≤ r.timestamp)) }

/-! ### Persistence: `saveQueryRecords` / `loadQueryRecords`

The durable store holds `JSON.stringify(this.queryRecords)`; loading runs
`JSON.parse` on the file content.  The JSON layer is modelled by an explicit
JSON value type and an encoder/decoder pair for record lists, so the
round-trip through the store is a real serialization round-trip and not the
identity by definition. -/

/-- JSON values (the fragment these records use). -/
inductive Json where
  | str (s : String)
  | num (n : Int)
  | arr (xs : List Json)
  | obj (fields : List (String × Json))
deriving Repr

/-- Field access on a JSON object, as `JSON.parse`d JS objects are read. -/
def jsonField (j : Json) (k : String) : Option Json :=
  match j with
  | .obj fields => (fields.find? (fun p => p.1 == k)).map (·.2)
  | _ => none

/-- Serialization of one record, the shape `JSON.stringify` produces for a
`QueryRecord` object literal. -/
def encodeRecord (r : QueryRecord) : Json :=
  .obj [("userId", .str r.userId), ("command", .str r.command), ("timestamp", .num r.timestamp)]

/-- Deserialization of one record from its JSON value. -/
def decodeRecord (j : Json) : Option QueryRecord :=
  match jsonField j "userId", jsonField j "command", jsonField j "timestamp" with
  | some (.str u), some (.str c), some (.num t) => some ⟨u, c, t⟩
  | _, _, _ => none

/-- Serialization of the ledger: `JSON.stringify(this.queryRecords)`. -/
def encodeRecords (rs : List QueryRecord) : Json :=
  .arr (rs.map encodeRecord)

/-- Deserialization of a stored ledger. -/
def decodeRecords (j : Json) : Option (List QueryRecord) :=
  match j with
  | .arr xs => xs.mapM decodeRecord
  | _ => none

/-- `saveQueryRecords()`: when file storage is enabled, replace the store
content wholesale with the serialized ledger; otherwise leave the store
untouched.  (A write failure leaves the old content; that branch is the
`store` argument unchanged.) -/
def saveQueryRecords (L : QueryLimiter) (useFileStorage : Bool)
    (store : Option Json) : Option Json :=
  if useFileStorage then some (encodeRecords L.queryRecords) else store

/-- `loadQueryRecords()`: when the store file exists, parse it into the
ledger; a missing file or a parse error starts with an empty ledger. -/
def loadQueryRecords (L : QueryLimiter) (store : Option Json) : QueryLimiter :=
  match store with
  | some data =>
      match decodeRecords data with
      | some recs => { L with queryRecords := recs }
      | none => { L with queryRecords := [] }
  | none => { L with queryRecords := [] }

/-! ### Configuration parsing: `parseLimitsFromEnv`

The source reads raw environment strings, applies JS `parseInt` to the limit
(yielding `NaN` on a malformed value) and casts the period string to the
`TimePeriod` union with `as` — no runtime validation and no throw.  The raw
layer below keeps that behaviour: `Option Int` with `none` for `NaN`, the
period kept verbatim as a string. -/

/-- JS `parseInt(s)` in base 10: an optional sign followed by the longest
prefix of decimal digits; no digits gives `NaN`, modelled as `none`. -/
def parseIntJS (s : String) : Option Int :=
  let chars := s.toList
  let (neg, digitsPart) :=
    match chars with
    | '-' :: rest => (true, rest)
    | '+' :: rest => (false, rest)
    | rest => (false, rest)
  let digits := digitsPart.takeWhile (fun ch => ch.isDigit)
  if digits.isEmpty then none
  else
    let n : Nat := digits.foldl (fun acc ch => acc * 10 + (ch.toNat - '0'.toNat)) 0
    some (if neg then -(n : Int) else (n : Int))

/-- One rule as actually built from the environment: the limit may be `NaN`
(`none`) and the period is whatever string the environment held. -/
structure RawRule where
  limit : Option Int
  period : String
deriving DecidableEq, Repr

/-- The configuration as actually built from the environment. -/
structure RawLimits where
  global : RawRule
  commands : List (String × RawRule)
deriving DecidableEq, Repr

/-- The fixed command-name list of `parseLimitsFromEnv`. -/
def commandNames : List String :=
  ["fastgpt", "websearch", "newssearch", "summarize", "search"]

/-- Environment lookup, `process.env[key]`. -/
def envGet (env : List (String × String)) (key : String) : Option String :=
  (env.find? (fun p => p.1 == key)).map (·.2)

/-- ASCII uppercase of one character (the command names are plain ASCII). -/
def toUpperAsciiChar (ch : Char) : Char :=
  if 97 ≤ ch.toNat ∧ ch.toNat ≤ 122 then Char.ofNat (ch.toNat - 32) else ch

/-- JS `cmd.toUpperCase()` on the ASCII command names. -/
def toUpperAscii (s : String) : String :=
  String.mk (s.data.map toUpperAsciiChar)

/-- `parseLimitsFromEnv()`: the global rule from `QUERY_LIMIT_GLOBAL`
(default `"-1"`) and `QUERY_LIMIT_GLOBAL_PERIOD` (default `"daily"`); one
per-command rule for each command name whose `QUERY_LIMIT_<CMD>` variable is
set to a truthy (non-empty) string.  Total: no branch throws. -/
def parseLimitsFromEnv (env : List (String × String)) : RawLimits :=
  { global :=
      { limit := parseIntJS ((envGet env "QUERY_LIMIT_GLOBAL").getD "-1")
        period := (envGet env "QUERY_LIMIT_GLOBAL_PERIOD").getD "daily" }
    commands := commandNames.filterMap (fun cmd =>
      match envGet env ("QUERY_LIMIT_" ++ toUpperAscii cmd) with
      | some limitEnv =>
          if limitEnv.isEmpty then none
          else some (cmd,
            { limit := parseIntJS limitEnv
              period := (envGet env ("QUERY_LIMIT_" ++ toUpperAscii cmd ++ "_PERIOD")).getD "daily" })
      | none => none) }

/-! ### Command dispatch: the `interactionCreate` handler

From the bot entry point: for a command other than `limits`, the handler
checks `canMakeQuery`; on denial it replies and returns without recording or
executing; otherwise it calls `recordQuery` and only then awaits
`command.execute(interaction)` (whose success is the `execOk` argument —
a failure is caught and reported, the record stands). -/

/-- Outcome of dispatching one interaction. -/
structure HandlerResult where
  limiter : QueryLimiter
  denied : Bool
  executed : Bool
deriving DecidableEq, Repr

/-- The `interactionCreate` handler's limiter-relevant control flow. -/
def interactionCreateHandler (L : QueryLimiter) (now : Int)
    (userId commandName : String) (execOk : Bool) : HandlerResult :=
  if commandName == "limits" then
    { limiter := L, denied := false, executed := execOk }
  else if !canMakeQuery L now userId commandName then
    { limiter := L, denied := true, executed := false }
  else
    { limiter := recordQuery L now userId commandName, denied := false, executed := execOk }

/-! ## Helper lemmas -/

theorem TIME_PERIODS_pos (p : TimePeriod) : 0 < TIME_PERIODS p := by
  cases p <;> norm_num [TIME_PERIODS]

theorem TIME_PERIODS_le_monthly (p : TimePeriod) : TIME_PERIODS p ≤ TIME_PERIODS .monthly := by
  cases p <;> norm_num [TIME_PERIODS]

theorem decodeRecord_encodeRecord (r : QueryRecord) :
    decodeRecord (encodeRecord r) = some r := rfl

theorem decodeRecords_encodeRecords (rs : List QueryRecord) :
    decodeRecords (encodeRecords rs) = some rs := by
  have h : ∀ l : List QueryRecord, (l.map encodeRecord).mapM decodeRecord = some l := by
    intro l
    induction l with
    | nil => rfl
    | cons r rest ih =>
        rw [List.map_cons, List.mapM_cons, decodeRecord_encodeRecord, ih]
        rfl
  simpa [decodeRecords, encodeRecords] using h rs

/-- Records removed by compaction lie outside every rule's window evaluated at
the compaction time: the window filters after compaction agree with the
window filters before it. -/
theorem getRecordsInPeriod_cleanupOldRecords (L : QueryLimiter) (t : Int)
    (u : String) (cmd : Option String) (p : TimePeriod) :
    getRecordsInPeriod (cleanupOldRecords L t) t u cmd p =
      getRecordsInPeriod L t u cmd p := by
  simp only [getRecordsInPeriod, cleanupOldRecords, List.filter_filter]
  refine List.filter_congr (fun r _ => ?_)
  by_cases hts : t - TIME_PERIODS p ≤ r.timestamp
  · have hkeep : t - TIME_PERIODS .monthly ≤ r.timestamp :=
      le_trans (by have := TIME_PERIODS_le_monthly p; omega) hts
    simp [hts, hkeep]
  · simp [hts]

/-! ## Claim theorems -/

/-- C6: the `try`/`catch` around `canMakeQuery` fails open: whenever the body
faults, the result is `true`; the wrapper is a total function into `Bool`, so
no limiter error propagates to the caller, and a fault-free evaluation
returns the normal admission result. -/
theorem canMakeQuery_fails_open (L : QueryLimiter) (t : Int) (u c msg : String) :
    canMakeQueryWithFault L t u c (some msg) = true ∧
    canMakeQueryWithFault L t u c none = canMakeQuery L t u c :=
  ⟨rfl, rfl⟩

/-- C2: the scenario with global limit 2/daily and scope "search" limit
1/daily, identity "U1", empty ledger, all steps at one instant: search is
admitted, then blocked by the scope cap after one record; summarize is
admitted, then blocked by the global cap after the second record. -/
theorem scenario_global2_search1 :
    canMakeQuery ⟨[], ⟨⟨2, .daily⟩, [("search", ⟨1, .daily⟩)]⟩, []⟩ 1000 "U1" "search" = true ∧
    canMakeQuery (recordQuery ⟨[], ⟨⟨2, .daily⟩, [("search", ⟨1, .daily⟩)]⟩, []⟩ 1000 "U1" "search")
      1000 "U1" "search" = false ∧
    canMakeQuery (recordQuery ⟨[], ⟨⟨2, .daily⟩, [("search", ⟨1, .daily⟩)]⟩, []⟩ 1000 "U1" "search")
      1000 "U1" "summarize" = true ∧
    canMakeQuery
      (recordQuery (recordQuery ⟨[], ⟨⟨2, .daily⟩, [("search", ⟨1, .daily⟩)]⟩, []⟩ 1000 "U1" "search")
        1000 "U1" "summarize") 1000 "U1" "summarize" = false := by
  decide

/-- C3: a privileged identity is always admitted without consulting the
ledger, its `recordQuery` is a no-op on the whole limiter state, and its
`getRemainingQueries` is the `{-1, -1}` sentinel pair. -/
theorem privileged_bypass (L : QueryLimiter) (t : Int) (u c : String)
    (hu : L.unlimitedUserIds.contains u = true) :
    canMakeQuery L t u c = true ∧
    recordQuery L t u c = L ∧
    getRemainingQueries L t u c = ⟨-1, -1⟩ := by
  have hm : u ∈ L.unlimitedUserIds := by simpa using hu
  refine ⟨?_, ?_, ?_⟩ <;> simp [canMakeQuery, recordQuery, getRemainingQueries, hm]

/-- Witness for C3 at a concrete privileged identity. -/
theorem privileged_bypass_witness :
    canMakeQuery ⟨[], ⟨⟨1, .daily⟩, []⟩, ["ADMIN"]⟩ 1000 "ADMIN" "search" = true :=
  (privileged_bypass ⟨[], ⟨⟨1, .daily⟩, []⟩, ["ADMIN"]⟩ 1000 "ADMIN" "search" (by decide)).1

/-- C1: for a non-privileged identity and a scope with a configured finite
per-scope rule, whenever the window count for that identity and scope has
reached the limit, `canMakeQuery` is `false`; and whenever it is below the
limit (the oldest records having aged out of the rolling window) and the
global rule is not binding, `canMakeQuery` is `true` again. -/
theorem canMakeQuery_scope_limit (L : QueryLimiter) (t : Int) (u c : String)
    (n : Int) (p : TimePeriod)
    (hu : L.unlimitedUserIds.contains u = false)
    (hr : lookupRule L.limits.commands c = some ⟨n, p⟩)
    (hn : n ≠ -1) :
    ((n ≤ ((getRecordsInPeriod L t u (some c) p).length : Int)) →
      canMakeQuery L t u c = false) ∧
    ((((getRecordsInPeriod L t u (some c) p).length : Int) < n) →
      (L.limits.global.limit = -1 ∨
        ((getRecordsInPeriod L t u none L.limits.global.period).length : Int) <
          L.limits.global.limit) →
      canMakeQuery L t u c = true) := by
  have hm : u ∉ L.unlimitedUserIds := by simpa using hu
  constructor
  · intro hcnt
    have hcb : commandBlocked L t u c = true := by
      simp [commandBlocked, hr, hn, hcnt]
    simp [canMakeQuery, hm, hcb]
  · intro hcnt hg
    have hlt : ¬ (n ≤ ((getRecordsInPeriod L t u (some c) p).length : Int)) :=
      not_le.mpr hcnt
    have hcb : commandBlocked L t u c = false := by
      simp [commandBlocked, hr, hlt]
    have hgb : globalBlocked L t u = false := by
      rcases hg with hg | hg
      · simp [globalBlocked, hg]
      · have hlt2 : ¬ (L.limits.global.limit ≤
            ((getRecordsInPeriod L t u none L.limits.global.period).length : Int)) :=
          not_le.mpr hg
        simp [globalBlocked, hlt2]
    simp [canMakeQuery, hm, hcb, hgb]

/-- Witness for C1: one record at the scope limit 1 blocks; after the window
slides past it, the scope is admitted again. -/
theorem canMakeQuery_scope_limit_witness :
    canMakeQuery ⟨[⟨"U1", "search", 1000⟩], ⟨⟨-1, .daily⟩, [("search", ⟨1, .daily⟩)]⟩, []⟩
      1000 "U1" "search" = false ∧
    canMakeQuery ⟨[⟨"U1", "search", 1000⟩], ⟨⟨-1, .daily⟩, [("search", ⟨1, .daily⟩)]⟩, []⟩
      (1000 + 24 * 60 * 60 * 1000 + 1) "U1" "search" = true :=
  ⟨(canMakeQuery_scope_limit
      ⟨[⟨"U1", "search", 1000⟩], ⟨⟨-1, .daily⟩, [("search", ⟨1, .daily⟩)]⟩, []⟩
      1000 "U1" "search" 1 .daily (by decide) (by decide) (by decide)).1 (by decide),
   (canMakeQuery_scope_limit
      ⟨[⟨"U1", "search", 1000⟩], ⟨⟨-1, .daily⟩, [("search", ⟨1, .daily⟩)]⟩, []⟩
      (1000 + 24 * 60 * 60 * 1000 + 1) "U1" "search" 1 .daily (by decide) (by decide)
      (by decide)).2 (by decide) (Or.inl (by decide))⟩

/-- C4: compaction keeps exactly the records at least as young as
`now - monthly`, and, the monthly window being the longest period, it changes
no `canMakeQuery` or `getRemainingQueries` result evaluated at the compaction
time. -/
theorem cleanupOldRecords_spec (L : QueryLimiter) (t : Int) (u c : String) :
    (∀ r : QueryRecord, r ∈ (cleanupOldRecords L t).queryRecords ↔
      (r ∈ L.queryRecords ∧ t - TIME_PERIODS .monthly ≤ r.timestamp)) ∧
    canMakeQuery (cleanupOldRecords L t) t u c = canMakeQuery L t u c ∧
    getRemainingQueries (cleanupOldRecords L t) t u c = getRemainingQueries L t u c := by
  have hl : (cleanupOldRecords L t).limits = L.limits := rfl
  have hup : (cleanupOldRecords L t).unlimitedUserIds = L.unlimitedUserIds := rfl
  refine ⟨?_, ?_, ?_⟩
  · intro r
    simp [cleanupOldRecords, List.mem_filter]
  · simp only [canMakeQuery, commandBlocked, globalBlocked, hl, hup,
      getRecordsInPeriod_cleanupOldRecords]
  · simp only [getRemainingQueries, hl, hup, getRecordsInPeriod_cleanupOldRecords]

/-- C5: saving the ledger to the store and loading it back (a restart with
persistence enabled) restores a limiter whose admission decisions agree with
the original at every identity, scope and evaluation time. -/
theorem saveLoad_roundtrip_canMakeQuery (L M : QueryLimiter) (store : Option Json)
    (t : Int) (u c : String)
    (h1 : M.limits = L.limits) (h2 : M.unlimitedUserIds = L.unlimitedUserIds) :
    canMakeQuery (loadQueryRecords M (saveQueryRecords L true store)) t u c =
      canMakeQuery L t u c := by
  have hsave : saveQueryRecords L true store = some (encodeRecords L.queryRecords) := rfl
  have hload : loadQueryRecords M (saveQueryRecords L true store) = L := by
    rw [hsave]
    simp only [loadQueryRecords, decodeRecords_encodeRecords]
    cases L
    cases M
    simp_all
  rw [hload]

/-- Witness for C5 at a concrete ledger, configuration and query. -/
theorem saveLoad_roundtrip_canMakeQuery_witness :
    canMakeQuery
      (loadQueryRecords ⟨[], ⟨⟨2, .daily⟩, [("search", ⟨1, .daily⟩)]⟩, []⟩
        (saveQueryRecords ⟨[⟨"U1", "search", 1000⟩], ⟨⟨2, .daily⟩, [("search", ⟨1, .daily⟩)]⟩, []⟩
          true none))
      1000 "U1" "search" =
    canMakeQuery ⟨[⟨"U1", "search", 1000⟩], ⟨⟨2, .daily⟩, [("search", ⟨1, .daily⟩)]⟩, []⟩
      1000 "U1" "search" :=
  saveLoad_roundtrip_canMakeQuery _ _ none 1000 "U1" "search" rfl rfl

/-- C7 counterexample: with an unlimited configuration (so admission passes),
dispatching a command whose external call fails (`execOk = false`) still
appends the usage record to the ledger — the handler records before
executing, so a failed action does consume quota, contrary to the claim that
no record is ever appended when the external call errors. -/
theorem handler_failed_call_consumes_quota_cex :
    canMakeQuery ⟨[], ⟨⟨-1, .daily⟩, []⟩, []⟩ 5 "U1" "websearch" = true ∧
    (interactionCreateHandler ⟨[], ⟨⟨-1, .daily⟩, []⟩, []⟩ 5 "U1" "websearch" false).executed
      = false ∧
    (interactionCreateHandler ⟨[], ⟨⟨-1, .daily⟩, []⟩, []⟩ 5 "U1" "websearch"
        false).limiter.queryRecords = [⟨"U1", "websearch", 5⟩] := by
  decide

/-- C7 amended: once the admission check passes (for a command other than
`limits` and a non-privileged identity), the handler appends the usage record
regardless of whether the subsequent external call succeeds; a failed action
consumes quota. -/
theorem handler_records_regardless_of_execution (L : QueryLimiter) (t : Int)
    (u c : String) (execOk : Bool)
    (hc : c ≠ "limits")
    (hu : L.unlimitedUserIds.contains u = false)
    (hq : canMakeQuery L t u c = true) :
    (interactionCreateHandler L t u c execOk).limiter.queryRecords =
      L.queryRecords ++ [⟨u, c, t⟩] := by
  have hm : u ∉ L.unlimitedUserIds := by simpa using hu
  have hc' : (c == "limits") = false := by simp [hc]
  simp [interactionCreateHandler, hc', hq, recordQuery, hm]

/-- Witness for the amended C7 at a concrete input (with a failing external
call). -/
theorem handler_records_regardless_of_execution_witness :
    (interactionCreateHandler ⟨[], ⟨⟨-1, .daily⟩, []⟩, []⟩ 5 "U1" "fastgpt"
        false).limiter.queryRecords = [] ++ [⟨"U1", "fastgpt", 5⟩] :=
  handler_records_regardless_of_execution _ 5 "U1" "fastgpt" false (by decide) rfl (by decide)

/-- C8: `getRemainingQueries` returns the `-1` sentinel for an unlimited tier
(no per-scope rule, the `-1` per-scope sentinel, or the `-1` global sentinel),
for every identity and whatever the ledger holds; for a limited tier and a
non-privileged identity it returns the raw `limit - windowCount`. -/
theorem getRemainingQueries_spec (L : QueryLimiter) (t : Int) (u c : String) :
    (lookupRule L.limits.commands c = none → (getRemainingQueries L t u c).command = -1) ∧
    (∀ p : TimePeriod, lookupRule L.limits.commands c = some ⟨-1, p⟩ →
      (getRemainingQueries L t u c).command = -1) ∧
    (L.limits.global.limit = -1 → (getRemainingQueries L t u c).global = -1) ∧
    (L.unlimitedUserIds.contains u = false →
      (∀ (n : Int) (p : TimePeriod), lookupRule L.limits.commands c = some ⟨n, p⟩ → n ≠ -1 →
        (getRemainingQueries L t u c).command =
          n - (getRecordsInPeriod L t u (some c) p).length) ∧
      (L.limits.global.limit ≠ -1 →
        (getRemainingQueries L t u c).global =
          L.limits.global.limit -
            (getRecordsInPeriod L t u none L.limits.global.period).length)) := by
  by_cases hm : u ∈ L.unlimitedUserIds
  · have hc : L.unlimitedUserIds.contains u = true := by simpa using hm
    refine ⟨fun _ => ?_, fun p _ => ?_, fun _ => ?_, fun h4 => ?_⟩
    · simp [getRemainingQueries, hm]
    · simp [getRemainingQueries, hm]
    · simp [getRemainingQueries, hm]
    · rw [hc] at h4
      simp at h4
  · refine ⟨fun h => ?_, fun p hp => ?_, fun hg => ?_,
      fun _ => ⟨fun n p hnp hn => ?_, fun hg => ?_⟩⟩
    · simp [getRemainingQueries, hm, h]
    · simp [getRemainingQueries, hm, hp]
    · simp [getRemainingQueries, hm, hg]
    · simp [getRemainingQueries, hm, hnp, hn]
    · simp [getRemainingQueries, hm, hg]

/-- Witness for C8: a limited scope with one record in the window reports the
raw difference. -/
theorem getRemainingQueries_spec_witness :
    (getRemainingQueries ⟨[⟨"U1", "search", 1000⟩], ⟨⟨-1, .daily⟩, [("search", ⟨1, .daily⟩)]⟩, []⟩
        1000 "U1" "search").command =
      1 - ((getRecordsInPeriod
        ⟨[⟨"U1", "search", 1000⟩], ⟨⟨-1, .daily⟩, [("search", ⟨1, .daily⟩)]⟩, []⟩
        1000 "U1" (some "search") .daily).length : Int) :=
  (((getRemainingQueries_spec
      ⟨[⟨"U1", "search", 1000⟩], ⟨⟨-1, .daily⟩, [("search", ⟨1, .daily⟩)]⟩, []⟩
      1000 "U1" "search").2.2.2 (by decide)).1 1 .daily (by decide) (by decide))

/-- C9 counterexample: with `QUERY_LIMIT_GLOBAL = "abc"` (malformed limit) and
`QUERY_LIMIT_SEARCH_PERIOD = "fortnightly"` (malformed period), configuration
building completes normally — the returned configuration holds the malformed
global rule (limit `NaN`, modelled `none`) and the per-scope rule with the
unvalidated period string.  No `ConfigurationError` exists and startup is not
aborted, contrary to the claim. -/
theorem parseLimitsFromEnv_malformed_cex :
    parseLimitsFromEnv [("QUERY_LIMIT_GLOBAL", "abc"), ("QUERY_LIMIT_SEARCH", "5"),
        ("QUERY_LIMIT_SEARCH_PERIOD", "fortnightly")] =
      ⟨⟨none, "daily"⟩, [("search", ⟨some 5, "fortnightly"⟩)]⟩ := by
  decide

/-- C9 amended: configuration building never raises.  A malformed global
limit string is run through `parseInt` and the resulting `NaN` (`none`) is
stored in the constructed configuration; the configured period string is
stored verbatim, validated nowhere. -/
theorem parseLimitsFromEnv_keeps_malformed (env : List (String × String)) (s ps : String)
    (hs : envGet env "QUERY_LIMIT_GLOBAL" = some s) (hbad : parseIntJS s = none)
    (hp : envGet env "QUERY_LIMIT_GLOBAL_PERIOD" = some ps) :
    (parseLimitsFromEnv env).global.limit = none ∧
    (parseLimitsFromEnv env).global.period = ps := by
  simp [parseLimitsFromEnv, hs, hbad, hp]

/-- Witness for the amended C9 at a concrete malformed environment. -/
theorem parseLimitsFromEnv_keeps_malformed_witness :
    (parseLimitsFromEnv [("QUERY_LIMIT_GLOBAL", "xyz"),
        ("QUERY_LIMIT_GLOBAL_PERIOD", "fortnightly")]).global.limit = none ∧
    (parseLimitsFromEnv [("QUERY_LIMIT_GLOBAL", "xyz"),
        ("QUERY_LIMIT_GLOBAL_PERIOD", "fortnightly")]).global.period = "fortnightly" :=
  parseLimitsFromEnv_keeps_malformed _ "xyz" "fortnightly" rfl rfl rfl

/-- Appending one in-window record for the identity and scope extends every
per-scope window filter at the recording time by exactly that record. -/
theorem getRecordsInPeriod_recordQuery_same (L : QueryLimiter) (t : Int) (u c : String)
    (hu : L.unlimitedUserIds.contains u = false) (p : TimePeriod) :
    getRecordsInPeriod (recordQuery L t u c) t u (some c) p =
      getRecordsInPeriod L t u (some c) p ++ [⟨u, c, t⟩] := by
  have hm : u ∉ L.unlimitedUserIds := by simpa using hu
  have hle : t ≤ t + TIME_PERIODS p := by
    have := TIME_PERIODS_pos p
    omega
  simp [getRecordsInPeriod, recordQuery, hm, List.filter_append, hle]

/-- C10: `recordQuery` performs no admission check — for a non-privileged
identity it appends exactly one record with the current timestamp whatever
the current counts are, and under a finite per-scope rule each call lowers
the reported remaining quota by exactly one, so repeated calls drive it
arbitrarily negative. -/
theorem recordQuery_no_admission_check (L : QueryLimiter) (t : Int) (u c : String)
    (hu : L.unlimitedUserIds.contains u = false) :
    (recordQuery L t u c).queryRecords = L.queryRecords ++ [⟨u, c, t⟩] ∧
    (∀ (n : Int) (p : TimePeriod), lookupRule L.limits.commands c = some ⟨n, p⟩ → n ≠ -1 →
      (getRemainingQueries (recordQuery L t u c) t u c).command =
        (getRemainingQueries L t u c).command - 1) := by
  have hm : u ∉ L.unlimitedUserIds := by simpa using hu
  constructor
  · simp [recordQuery, hm]
  · intro n p hnp hn
    have hrec := getRecordsInPeriod_recordQuery_same L t u c hu p
    have hlim : (recordQuery L t u c).limits = L.limits := by simp [recordQuery, hm]
    have hup : (recordQuery L t u c).unlimitedUserIds = L.unlimitedUserIds := by
      simp [recordQuery, hm]
    have e1 : (getRemainingQueries (recordQuery L t u c) t u c).command =
        n - ((getRecordsInPeriod (recordQuery L t u c) t u (some c) p).length : Int) := by
      simp [getRemainingQueries, hlim, hup, hm, hnp, hn]
    have e2 : (getRemainingQueries L t u c).command =
        n - ((getRecordsInPeriod L t u (some c) p).length : Int) := by
      simp [getRemainingQueries, hm, hnp, hn]
    rw [e1, e2, hrec]
    simp [List.length_append]
    ring

/-- Witness for C10: recording for an identity already at the limit still
appends and lowers the remaining count (here from `0` to `-1`). -/
theorem recordQuery_no_admission_check_witness :
    (getRemainingQueries
      (recordQuery ⟨[⟨"U1", "search", 1000⟩], ⟨⟨-1, .daily⟩, [("search", ⟨1, .daily⟩)]⟩, []⟩
        1000 "U1" "search") 1000 "U1" "search").command =
    (getRemainingQueries ⟨[⟨"U1", "search", 1000⟩], ⟨⟨-1, .daily⟩, [("search", ⟨1, .daily⟩)]⟩, []⟩
        1000 "U1" "search").command - 1 :=
  (recordQuery_no_admission_check
      ⟨[⟨"U1", "search", 1000⟩], ⟨⟨-1, .daily⟩, [("search", ⟨1, .daily⟩)]⟩, []⟩
      1000 "U1" "search" (by decide)).2 1 .daily (by decide) (by decide)

end KagiBot
